import Mathlib

set_option maxHeartbeats 1000000
set_option maxRecDepth 4000

/-!
Shallow embedding of the GitHub issue-analysis backend.

The embedding follows the TypeScript sources:
- `src/types/index.ts` : the `GitHubIssue` shape fetched from the API;
- `src/services/database.ts` (bundled inside `src/routes/scan.ts`) : the
  Prisma-backed store (`Issue` and `ScanProgress` tables) and its operations
  `saveIssues`, `appendIssues`, `createOrResetScanProgress`,
  `updateScanProgress`, `completeScan`, `failScan`, `setRateLimitRetry`,
  `deleteScanProgress`;
- `src/services/github.ts` : `fetchIssuesWithCursor` and `RateLimitError`;
- `src/services/llm.ts` : `estimateTokens`, `formatIssuesForLLM`,
  `chunkText`, `analyzeIssues`, `analyzeWithProvider` and the provider
  adapters.

Conventions of the embedding: JavaScript strings become Lean `String`
(ASCII-compatible, so `length` agrees with the JS `length`); `Date` /
instants become `Int` epoch milliseconds, and stored `DateTime` columns keep
the ISO string they were built from (`new Date(issue.created_at)` is kept as
the string itself, since the code only ever turns it back into an ISO string
via `toISOString`); Prisma tables become Lean lists of records; `async`
functions that can throw become functions into `Except`; network and LLM
responses are passed in as explicit arguments, so a call of the embedded
function corresponds to one run of the source function against those
responses.
-/

/-- The `GitHubIssue` interface of `src/types/index.ts`: a normalized issue
as returned by the fetchers. -/
structure GitHubIssue where
  id : Int
  title : String
  body : Option String
  html_url : String
  created_at : String
deriving DecidableEq, Repr

/-- A row of the Prisma `Issue` table (see `saveIssues` / `appendIssues` in
`src/services/database.ts`): key is the composite `(repo, githubId)`. -/
structure IssueRecord where
  repo : String
  githubId : Int
  title : String
  body : Option String
  htmlUrl : String
  createdAt : String
deriving DecidableEq, Repr

/-- A row of the Prisma `ScanProgress` table: one checkpoint per repo.
Fields are those read and written by `src/services/database.ts`
(`status`, `currentPage`, `issuesFetched`, `totalPages`, `errorMessage`,
`nextRetryAt`, `startedAt`, `cursor`). -/
structure ScanProgress where
  repo : String
  status : String
  currentPage : Nat
  issuesFetched : Nat
  totalPages : Option Nat
  errorMessage : Option String
  nextRetryAt : Option Int
  startedAt : Int
  cursor : Option String
deriving DecidableEq, Repr

/-- The durable store: the `Issue` table and the `ScanProgress` table. -/
structure Db where
  issues : List IssueRecord
  progress : List ScanProgress
deriving DecidableEq, Repr

/-- The record built for a fetched issue by both `saveIssues` and the
`create` branch of the upsert in `appendIssues`. -/
def mkRecord (repo : String) (iss : GitHubIssue) : IssueRecord :=
  { repo := repo
    githubId := iss.id
    title := iss.title
    body := iss.body
    htmlUrl := iss.html_url
    createdAt := iss.created_at }

/-- `saveIssues` of `src/services/database.ts`: deletes every cached issue of
`repo` (`prisma.issue.deleteMany`), then inserts the given issues
(`prisma.issue.createMany`) and returns the created count. -/
def saveIssues (repo : String) (issues : List GitHubIssue) (db : Db) :
    Db × Nat :=
  let cleared := db.issues.filter (fun r => r.repo ≠ repo)
  let newRecs := issues.map (mkRecord repo)
  ({ db with issues := cleared ++ newRecs }, newRecs.length)

/-- One `prisma.issue.upsert` keyed by the composite `repo_githubId`
(the loop body of `appendIssues`): update the matching row in place when it
exists, otherwise create it. -/
def upsertIssue (repo : String) (iss : GitHubIssue) (l : List IssueRecord) :
    List IssueRecord :=
  if l.any (fun r => r.repo == repo && r.githubId == iss.id) then
    l.map (fun r =>
      if r.repo == repo && r.githubId == iss.id then
        { r with
          title := iss.title
          body := iss.body
          htmlUrl := iss.html_url
          createdAt := iss.created_at }
      else r)
  else
    l ++ [mkRecord repo iss]

/-- `appendIssues` of `src/services/database.ts`: early return `0` on an
empty list, else upsert each issue in order, incrementing `count` once per
issue of the list, and return the final count. -/
def appendIssues (repo : String) (issues : List GitHubIssue) (db : Db) :
    Db × Nat :=
  if issues.isEmpty then (db, 0)
  else
    issues.foldl
      (fun acc iss =>
        ({ acc.1 with issues := upsertIssue repo iss acc.1.issues }, acc.2 + 1))
      (db, 0)

/-- `createOrResetScanProgress` of `src/services/database.ts`: delete every
cached issue of `repo`, then upsert the checkpoint.  The `update` branch sets
`status`, `currentPage`, `issuesFetched`, `totalPages`, `errorMessage`,
`nextRetryAt` and `startedAt` — and, exactly as in the source, does **not**
touch `cursor`.  The `create` branch creates a fresh row whose optional
columns (among them `cursor`) take their schema default `null`. -/
def createOrResetScanProgress (now : Int) (repo : String) (db : Db) :
    Db × ScanProgress :=
  let issues' := db.issues.filter (fun r => r.repo ≠ repo)
  match db.progress.find? (fun p => p.repo == repo) with
  | some p =>
      let p' : ScanProgress :=
        { p with
          status := "in_progress"
          currentPage := 0
          issuesFetched := 0
          totalPages := none
          errorMessage := none
          nextRetryAt := none
          startedAt := now }
      ({ issues := issues'
         progress := db.progress.map (fun q => if q.repo == repo then p' else q) },
       p')
  | none =>
      let p' : ScanProgress :=
        { repo := repo
          status := "in_progress"
          currentPage := 0
          issuesFetched := 0
          totalPages := none
          errorMessage := none
          nextRetryAt := none
          startedAt := now
          cursor := none }
      ({ issues := issues', progress := db.progress ++ [p'] }, p')

/-- The partial-update argument of `updateScanProgress` (each field optional,
`none` meaning "not supplied"). -/
structure ScanProgressUpdate where
  currentPage : Option Nat := none
  issuesFetched : Option Nat := none
  totalPages : Option (Option Nat) := none
  status : Option String := none
  errorMessage : Option (Option String) := none
  nextRetryAt : Option (Option Int) := none
  cursor : Option (Option String) := none
deriving DecidableEq, Repr

/-- Application of a partial update to one checkpoint row
(`prisma.scanProgress.update` data semantics). -/
def applyUpdate (p : ScanProgress) (u : ScanProgressUpdate) : ScanProgress :=
  { p with
    currentPage := u.currentPage.getD p.currentPage
    issuesFetched := u.issuesFetched.getD p.issuesFetched
    totalPages := u.totalPages.getD p.totalPages
    status := u.status.getD p.status
    errorMessage := u.errorMessage.getD p.errorMessage
    nextRetryAt := u.nextRetryAt.getD p.nextRetryAt
    cursor := u.cursor.getD p.cursor }

/-- `updateScanProgress` of `src/services/database.ts`: update the checkpoint
row of `repo` with the supplied fields.  Only the `ScanProgress` table is
touched. -/
def updateScanProgress (repo : String) (u : ScanProgressUpdate) (db : Db) :
    Db :=
  { db with
    progress := db.progress.map (fun p => if p.repo == repo then applyUpdate p u else p) }

/-- `completeScan` of `src/services/database.ts`. -/
def completeScan (repo : String) (totalIssues : Nat) (db : Db) : Db :=
  { db with
    progress := db.progress.map (fun p =>
      if p.repo == repo then
        { p with
          status := "completed"
          issuesFetched := totalIssues
          errorMessage := none
          nextRetryAt := none }
      else p) }

/-- `failScan` of `src/services/database.ts`. -/
def failScan (repo : String) (errorMessage : String) (db : Db) : Db :=
  { db with
    progress := db.progress.map (fun p =>
      if p.repo == repo then
        { p with status := "failed", errorMessage := some errorMessage }
      else p) }

/-- `setRateLimitRetry` of `src/services/database.ts` (the ISO rendering of
the retry instant inside the message is kept abstract as `toString`). -/
def setRateLimitRetry (repo : String) (retryAt : Int) (db : Db) : Db :=
  { db with
    progress := db.progress.map (fun p =>
      if p.repo == repo then
        { p with
          nextRetryAt := some retryAt
          errorMessage := some ("Rate limited. Retry after " ++ toString retryAt) }
      else p) }

/-- `deleteScanProgress` of `src/services/database.ts`: removes the
checkpoint row only; the `Issue` table is untouched. -/
def deleteScanProgress (repo : String) (db : Db) : Db :=
  { db with progress := db.progress.filter (fun p => p.repo ≠ repo) }

/-- `getIssuesByRepo` restricted to membership (ordering by `createdAt desc`
is presentation only): the cached issues of one repo. -/
def issuesOfRepo (repo : String) (db : Db) : List IssueRecord :=
  db.issues.filter (fun r => r.repo == repo)

/-- Decidable presence of a stored record with the given composite key. -/
def hasIssueKey (repo : String) (gid : Int) (l : List IssueRecord) : Bool :=
  l.any (fun r => r.repo == repo && r.githubId == gid)

/-! Fixtures for the concrete evaluations below. -/

/-- Fixture: a completed prior checkpoint that still carries a pagination
cursor, as left behind by a finished progressive scan. -/
def staleCursorProgress : ScanProgress :=
  { repo := "acme/widgets"
    status := "completed"
    currentPage := 5
    issuesFetched := 42
    totalPages := some 5
    errorMessage := none
    nextRetryAt := none
    startedAt := 0
    cursor := some "abc" }

/-- Fixture: one cached record of the same repo. -/
def cachedRec : IssueRecord :=
  { repo := "acme/widgets"
    githubId := 7
    title := "t"
    body := none
    htmlUrl := "u"
    createdAt := "2024-01-01T00:00:00.000Z" }

/-- Fixture: a store holding the cached record and the completed checkpoint
with its stale cursor. -/
def dbWithStaleCursor : Db :=
  { issues := [cachedRec], progress := [staleCursorProgress] }

/-- Fixture: an empty store. -/
def emptyDb : Db := { issues := [], progress := [] }

/-- Fixture: a first fetch of issue number 1. -/
def issueV1 : GitHubIssue :=
  { id := 1, title := "first fetch", body := none, html_url := "u1",
    created_at := "c1" }

/-- Fixture: a later fetch of the same issue number 1 with changed fields. -/
def issueV2 : GitHubIssue :=
  { id := 1, title := "second fetch", body := some "b", html_url := "u2",
    created_at := "c2" }

/-- C1: a fresh-scan reset on an existing checkpoint sets the status to
in-progress, zeroes both counters, clears `totalPages`, `errorMessage` and
the retry-not-before timestamp, and deletes every cached record of the
collection — but the `update` branch of the upsert in
`createOrResetScanProgress` never assigns `cursor`, so the stale pagination
cursor `"abc"` survives the reset instead of being cleared as the claim (and
the function's own "start fresh" doc comment) requires. -/
theorem createOrResetScanProgress_keeps_stale_cursor :
    (createOrResetScanProgress 100 "acme/widgets" dbWithStaleCursor).2 =
      { repo := "acme/widgets"
        status := "in_progress"
        currentPage := 0
        issuesFetched := 0
        totalPages := none
        errorMessage := none
        nextRetryAt := none
        startedAt := 100
        cursor := some "abc" }
    ∧ (createOrResetScanProgress 100 "acme/widgets" dbWithStaleCursor).1.issues = []
    ∧ (createOrResetScanProgress 100 "acme/widgets" dbWithStaleCursor).2.cursor ≠ none := by
  decide

/-- C2 counterexample: upserting the same record twice in one `appendIssues`
call stores exactly one record (with the later fields), yet the reported
count is `2` — the raw fetch count, not the number of distinct upserted
records, refuting the counter half of the claim. -/
theorem appendIssues_counts_raw_fetches :
    (appendIssues "acme/widgets" [issueV1, issueV2] emptyDb).1.issues =
        [mkRecord "acme/widgets" issueV2]
    ∧ (appendIssues "acme/widgets" [issueV1, issueV2] emptyDb).2 = 2
    ∧ (appendIssues "acme/widgets" [issueV1, issueV2] emptyDb).2 ≠
        (appendIssues "acme/widgets" [issueV1, issueV2] emptyDb).1.issues.length := by
  decide

/-- Helper: the field update performed by the upsert keeps `repo` and
`githubId`, so mapping it over records none of which match the key leaves
nothing for the key filter to find. -/
theorem filter_upsertMap_eq_nil (repo : String) (gid : Int) (iss : GitHubIssue)
    (l : List IssueRecord) (h : hasIssueKey repo gid l = false) :
    ((l.map (fun r =>
        if r.repo == repo && r.githubId == gid then
          { r with
            title := iss.title
            body := iss.body
            htmlUrl := iss.html_url
            createdAt := iss.created_at }
        else r)).filter (fun r => r.repo == repo && r.githubId == gid)) = [] := by
  induction l with
  | nil => rfl
  | cons a t ih =>
      simp only [hasIssueKey, List.any_cons, Bool.or_eq_false_iff] at h
      obtain ⟨ha, ht⟩ := h
      simp only [List.map_cons, ha, Bool.false_eq_true, if_false]
      rw [List.filter_cons_of_neg (by simp [ha])]
      exact ih ht

/-- C2 (amended): upserting the same external id twice through
`appendIssues` (two resumed fetches) leaves exactly one stored record for the
key, carrying the later fetch's field values; each call reports the raw
number of issues it was handed (here `1` and `1`), each upsert incrementing
the count once whether it created or updated. -/
theorem appendIssues_upsert_idempotent (repo : String) (i1 i2 : GitHubIssue)
    (db : Db) (hid : i1.id = i2.id)
    (hnew : hasIssueKey repo i1.id db.issues = false) :
    ((appendIssues repo [i2] (appendIssues repo [i1] db).1).1.issues.filter
        (fun r => r.repo == repo && r.githubId == i2.id)) = [mkRecord repo i2]
    ∧ (appendIssues repo [i1] db).2 = 1
    ∧ (appendIssues repo [i2] (appendIssues repo [i1] db).1).2 = 1 := by
  have h1 : appendIssues repo [i1] db =
      ({ db with issues := upsertIssue repo i1 db.issues }, 1) := rfl
  have h2 : ∀ d : Db, appendIssues repo [i2] d =
      ({ d with issues := upsertIssue repo i2 d.issues }, 1) := fun _ => rfl
  have hu1 : upsertIssue repo i1 db.issues = db.issues ++ [mkRecord repo i1] := by
    unfold upsertIssue
    rw [show (db.issues.any fun r => r.repo == repo && r.githubId == i1.id) = false
        from hnew]
    simp
  have hnew2 : hasIssueKey repo i2.id db.issues = false := hid ▸ hnew
  have hcond : ((db.issues ++ [mkRecord repo i1]).any
      (fun r => r.repo == repo && r.githubId == i2.id)) = true := by
    simp [List.any_append, mkRecord, hid]
  have hkey : (appendIssues repo [i2] (appendIssues repo [i1] db).1).1.issues
      = upsertIssue repo i2 (db.issues ++ [mkRecord repo i1]) := by
    rw [h1, h2]
    dsimp only
    rw [hu1]
  refine ⟨?_, by rw [h1], by rw [h1, h2]⟩
  rw [hkey]
  unfold upsertIssue
  rw [show ((db.issues ++ [mkRecord repo i1]).any
      (fun r => r.repo == repo && r.githubId == i2.id)) = true from hcond]
  simp only [if_true, List.map_append, List.filter_append]
  rw [filter_upsertMap_eq_nil repo i2.id i2 db.issues hnew2]
  simp [mkRecord, hid]

/-- C8 counterexample: `saveIssues` — invoked by the `POST /scan` handler on
every scan, not only at checkpoint reset — deletes every previously cached
record of the collection before inserting, so wholesale deletion is not
confined to `createOrResetScanProgress`. -/
theorem saveIssues_deletes_outside_reset :
    dbWithStaleCursor.issues ≠ []
    ∧ (saveIssues "acme/widgets" [] dbWithStaleCursor).1.issues = [] := by
  decide

/-- Helper: an upsert never removes a stored composite key. -/
theorem hasIssueKey_upsertIssue (rp : String) (gid : Int) (repo : String)
    (iss : GitHubIssue) (l : List IssueRecord)
    (h : hasIssueKey rp gid l = true) :
    hasIssueKey rp gid (upsertIssue repo iss l) = true := by
  unfold upsertIssue
  by_cases hc : (l.any fun r => r.repo == repo && r.githubId == iss.id) = true
  · rw [if_pos hc]
    simp only [hasIssueKey, List.any_eq_true] at h ⊢
    obtain ⟨r, hr, hp⟩ := h
    refine ⟨_, List.mem_map_of_mem _ hr, ?_⟩
    by_cases hcr : (r.repo == repo && r.githubId == iss.id) = true
    · simpa [hcr] using hp
    · simpa [hcr] using hp
  · rw [if_neg hc]
    simp only [hasIssueKey] at h
    simp [hasIssueKey, List.any_append, h]

/-- Helper: the fold inside `appendIssues` never removes a stored key. -/
theorem hasIssueKey_appendFold (rp : String) (gid : Int) (repo : String)
    (issues : List GitHubIssue) :
    ∀ acc : Db × Nat, hasIssueKey rp gid acc.1.issues = true →
      hasIssueKey rp gid
        ((issues.foldl (fun acc iss =>
            ({ acc.1 with issues := upsertIssue repo iss acc.1.issues },
             acc.2 + 1)) acc)).1.issues = true := by
  induction issues with
  | nil => intro acc h; simpa using h
  | cons iss rest ih =>
      intro acc h
      simp only [List.foldl_cons]
      exact ih _ (hasIssueKey_upsertIssue rp gid repo iss acc.1.issues h)

/-- C8 (amended): apart from the two wholesale deleters —
`createOrResetScanProgress` and `saveIssues` — no operation of the scan
subsystem deletes a collection's cached records: the progressive-scan
`appendIssues` and every checkpoint mutation (`updateScanProgress`,
`completeScan`, `failScan`, `setRateLimitRetry`, `deleteScanProgress`)
preserve every stored record key. -/
theorem scan_ops_preserve_cached_records (rp : String) (gid : Int)
    (repo : String) (issues : List GitHubIssue) (u : ScanProgressUpdate)
    (total : Nat) (err : String) (retryAt : Int) (db : Db)
    (h : hasIssueKey rp gid db.issues = true) :
    hasIssueKey rp gid (appendIssues repo issues db).1.issues = true
    ∧ hasIssueKey rp gid (updateScanProgress repo u db).issues = true
    ∧ hasIssueKey rp gid (completeScan repo total db).issues = true
    ∧ hasIssueKey rp gid (failScan repo err db).issues = true
    ∧ hasIssueKey rp gid (setRateLimitRetry repo retryAt db).issues = true
    ∧ hasIssueKey rp gid (deleteScanProgress repo db).issues = true := by
  refine ⟨?_, h, h, h, h, h⟩
  unfold appendIssues
  by_cases he : issues.isEmpty
  · simpa [he] using h
  · simp only [he, Bool.false_eq_true, if_false]
    exact hasIssueKey_appendFold rp gid repo issues (db, 0) h

/-- Witness for the amended C2 theorem at the fixtures. -/
theorem appendIssues_upsert_idempotent_witness :
    (issueV1.id = issueV2.id
      ∧ hasIssueKey "acme/widgets" issueV1.id emptyDb.issues = false)
    ∧ (((appendIssues "acme/widgets" [issueV2]
            (appendIssues "acme/widgets" [issueV1] emptyDb).1).1.issues.filter
          (fun r => r.repo == "acme/widgets" && r.githubId == issueV2.id)) =
            [mkRecord "acme/widgets" issueV2]
        ∧ (appendIssues "acme/widgets" [issueV1] emptyDb).2 = 1
        ∧ (appendIssues "acme/widgets" [issueV2]
            (appendIssues "acme/widgets" [issueV1] emptyDb).1).2 = 1) :=
  ⟨⟨by decide, by decide⟩,
    appendIssues_upsert_idempotent "acme/widgets" issueV1 issueV2 emptyDb
      (by decide) (by decide)⟩

/-- Witness for the amended C8 theorem at the fixtures. -/
theorem scan_ops_preserve_cached_records_witness :
    hasIssueKey "acme/widgets" 7 dbWithStaleCursor.issues = true
    ∧ (hasIssueKey "acme/widgets" 7
          (appendIssues "other/repo" [issueV1] dbWithStaleCursor).1.issues = true
        ∧ hasIssueKey "acme/widgets" 7
            (updateScanProgress "other/repo" {} dbWithStaleCursor).issues = true
        ∧ hasIssueKey "acme/widgets" 7
            (completeScan "other/repo" 3 dbWithStaleCursor).issues = true
        ∧ hasIssueKey "acme/widgets" 7
            (failScan "other/repo" "e" dbWithStaleCursor).issues = true
        ∧ hasIssueKey "acme/widgets" 7
            (setRateLimitRetry "other/repo" 5 dbWithStaleCursor).issues = true
        ∧ hasIssueKey "acme/widgets" 7
            (deleteScanProgress "other/repo" dbWithStaleCursor).issues = true) :=
  ⟨by decide,
    scan_ops_preserve_cached_records "acme/widgets" 7 "other/repo" [issueV1]
      {} 3 "e" 5 dbWithStaleCursor (by decide)⟩

/-! Embedding of `src/services/github.ts`. -/

/-- Quota telemetry of the GraphQL `rateLimit` block (`remaining`, `limit`,
`resetAt`); `resetAt` as epoch milliseconds. -/
structure RateLimitTelemetry where
  remaining : Nat
  limit : Nat
  resetAt : Int
deriving DecidableEq, Repr

/-- One node of `repository.issues.nodes` in the GraphQL response. -/
structure IssueNode where
  databaseId : Int
  title : String
  body : Option String
  url : String
  createdAt : String
deriving DecidableEq, Repr

/-- The `pageInfo` block of the GraphQL response. -/
structure IssuesPageInfo where
  hasNextPage : Bool
  endCursor : Option String
deriving DecidableEq, Repr

/-- The whole GraphQL response consumed by `fetchIssuesWithCursor`. -/
structure GraphQLIssuesResponse where
  nodes : List IssueNode
  pageInfo : IssuesPageInfo
  rateLimit : RateLimitTelemetry
deriving DecidableEq, Repr

/-- The `CursorFetchResult` interface of `src/services/github.ts`. -/
structure CursorFetchResult where
  issues : List GitHubIssue
  hasNextPage : Bool
  endCursor : Option String
deriving DecidableEq, Repr

/-- The error outcomes of `fetchIssuesWithCursor`: the typed `RateLimitError`
class (carrying `waitMs` and `resetAt`) kept as a distinguished variant, and
every other failure as a plain message. -/
inductive FetchError where
  | rateLimitError (waitMs : Int) (resetAt : Int)
  | fetchFailed (message : String)
deriving DecidableEq, Repr

/-- `fetchIssuesWithCursor` of `src/services/github.ts`, applied to the
GraphQL response of one page at instant `now`: when the returned quota
telemetry shows fewer than 3 remaining calls, throw
`RateLimitError(resetAt - now, resetAt)`; otherwise map the nodes to
normalized `GitHubIssue`s and return them with the page info. -/
def fetchIssuesWithCursor (now : Int) (resp : GraphQLIssuesResponse) :
    Except FetchError CursorFetchResult :=
  if resp.rateLimit.remaining < 3 then
    .error (.rateLimitError (resp.rateLimit.resetAt - now) resp.rateLimit.resetAt)
  else
    .ok
      { issues := resp.nodes.map (fun n =>
          { id := n.databaseId
            title := n.title
            body := n.body
            html_url := n.url
            created_at := n.createdAt })
        hasNextPage := resp.pageInfo.hasNextPage
        endCursor := resp.pageInfo.endCursor }

/-- C4: when the quota telemetry returned with a page fetch shows remaining
calls below the fixed safety threshold (3), `fetchIssuesWithCursor` raises
the distinguished rate-limit variant carrying both the wait duration
(`resetAt - now`) and the absolute reset instant — and conversely any
successful fetch had at least 3 remaining calls, so the condition is raised
before a next page could be requested, not after quota reaches zero. -/
theorem fetchIssuesWithCursor_rate_limit_guard (now now' : Int)
    (resp resp' : GraphQLIssuesResponse) (res : CursorFetchResult)
    (h : resp.rateLimit.remaining < 3)
    (h' : fetchIssuesWithCursor now' resp' = .ok res) :
    fetchIssuesWithCursor now resp =
      .error (.rateLimitError (resp.rateLimit.resetAt - now) resp.rateLimit.resetAt)
    ∧ 3 ≤ resp'.rateLimit.remaining := by
  constructor
  · unfold fetchIssuesWithCursor
    rw [if_pos h]
  · by_contra hlt
    rw [Nat.not_le] at hlt
    unfold fetchIssuesWithCursor at h'
    rw [if_pos hlt] at h'
    exact Except.noConfusion h'

/-- Fixture: a response whose telemetry shows only 2 remaining calls. -/
def lowQuotaResp : GraphQLIssuesResponse :=
  { nodes := []
    pageInfo := { hasNextPage := false, endCursor := none }
    rateLimit := { remaining := 2, limit := 5000, resetAt := 5000 } }

/-- Fixture: a response with comfortable quota headroom. -/
def okQuotaResp : GraphQLIssuesResponse :=
  { nodes := []
    pageInfo := { hasNextPage := false, endCursor := none }
    rateLimit := { remaining := 5, limit := 5000, resetAt := 5000 } }

/-- Witness for the C4 theorem: remaining 2 at reset instant 5000 raises the
typed error with wait 4900 from `now = 100`; remaining 5 succeeds. -/
theorem fetchIssuesWithCursor_rate_limit_guard_witness :
    (lowQuotaResp.rateLimit.remaining < 3
      ∧ fetchIssuesWithCursor 0 okQuotaResp =
          .ok { issues := [], hasNextPage := false, endCursor := none })
    ∧ (fetchIssuesWithCursor 100 lowQuotaResp =
          .error (.rateLimitError 4900 5000)
      ∧ 3 ≤ okQuotaResp.rateLimit.remaining) := by
  refine ⟨⟨by decide, by rfl⟩, ?_⟩
  have := fetchIssuesWithCursor_rate_limit_guard 100 0 lowQuotaResp okQuotaResp
    { issues := [], hasNextPage := false, endCursor := none }
    (by decide) (by rfl)
  simpa using this

/-! Embedding of `src/services/llm.ts`. -/

/-- `estimateTokens`: `Math.ceil(text.length / 4)`. -/
def estimateTokens (text : String) : Nat := (text.length + 3) / 4

/-- JavaScript `s.substring(0, n)`: the first `min n (length s)` characters. -/
def strTake (n : Nat) (s : String) : String := String.mk (s.data.take n)

/-- The description rendered for an issue body by `formatIssuesForLLM`:
`issue.body ? issue.body.substring(0, 300) + (issue.body.length > 300 ? "..." : "") : "No description"`
— the JS truthiness test sends both a null and an empty body to the
default. -/
def bodyDisplay : Option String → String
  | none => "No description"
  | some b =>
      if b = "" then "No description"
      else strTake 300 b ++ (if 300 < b.length then "..." else "")

/-- `issue.createdAt.toISOString().split("T")[0]`: the date part of the
stored ISO instant, before the first `T`. -/
def isoDatePart (s : String) : String :=
  String.mk (s.data.takeWhile (fun c => c ≠ 'T'))

/-- JavaScript `Array.prototype.join(sep)`. -/
def joinSep (sep : String) : List String → String
  | [] => ""
  | [x] => x
  | x :: xs => x ++ sep ++ joinSep sep xs

/-- One formatted entry of `formatIssuesForLLM` (its template literal), with
the 1-based display index. -/
def issueEntry (idx : Nat) (iss : IssueRecord) : String :=
  "## Issue " ++ toString idx ++ ": " ++ iss.title ++
  "\nURL: " ++ iss.htmlUrl ++
  "\nCreated: " ++ isoDatePart iss.createdAt ++
  "\nDescription: " ++ bodyDisplay iss.body ++ "\n"

/-- The index-carrying map inside `formatIssuesForLLM`. -/
def issueEntriesFrom (idx : Nat) : List IssueRecord → List String
  | [] => []
  | iss :: rest => issueEntry idx iss :: issueEntriesFrom (idx + 1) rest

/-- `formatIssuesForLLM`: the entries joined with the `\n---\n` record
separator. -/
def formatIssuesForLLM (issues : List IssueRecord) : String :=
  joinSep "\n---\n" (issueEntriesFrom 1 issues)

/-- The outcome of one provider transport call: an HTTP/SDK failure carrying
its message, or a response content (possibly empty). -/
inductive ProviderOutcome where
  | httpError (message : String)
  | content (s : String)
deriving DecidableEq, Repr

/-- `analyzeWithOllama` applied to the transport outcome: HTTP failures
become `Ollama error: <body>`, an empty content throws
`Ollama returned empty response`, otherwise the content is returned. -/
def analyzeWithOllama (raw : ProviderOutcome) : Except String String :=
  match raw with
  | .httpError e => .error ("Ollama error: " ++ e)
  | .content s => if s = "" then .error "Ollama returned empty response" else .ok s

/-- `analyzeWithOpenRouter` applied to the transport outcome: without a
configured key it throws `OpenRouter API key not configured`; an SDK failure
propagates with its own message; empty or invalid content throws
`OpenRouter returned empty or invalid response`. -/
def analyzeWithOpenRouter (configured : Bool) (raw : ProviderOutcome) :
    Except String String :=
  if configured = false then .error "OpenRouter API key not configured"
  else
    match raw with
    | .httpError e => .error e
    | .content s =>
        if s = "" then .error "OpenRouter returned empty or invalid response"
        else .ok s

/-- `analyzeWithProvider` of `src/services/llm.ts`: try OpenRouter first
when `OPENROUTER_API_KEY` is configured, recording its error on failure;
fall back to Ollama, recording its error on failure; when every attempted
provider failed, throw the aggregate error joining the recorded
`<provider>: <reason>` lines. -/
def analyzeWithProvider (configured : Bool) (orRaw olRaw : ProviderOutcome) :
    Except String String :=
  if configured then
    match analyzeWithOpenRouter configured orRaw with
    | .ok s => .ok s
    | .error e1 =>
        match analyzeWithOllama olRaw with
        | .ok s => .ok s
        | .error e2 =>
            .error ("All LLM providers failed:\n" ++
              joinSep "\n" ["OpenRouter: " ++ e1, "Ollama: " ++ e2])
  else
    match analyzeWithOllama olRaw with
    | .ok s => .ok s
    | .error e2 =>
        .error ("All LLM providers failed:\n" ++ joinSep "\n" ["Ollama: " ++ e2])

/-- C5: the provider router attempts the configured providers in order and
returns the answer of the first that yields a non-empty answer: a non-empty
OpenRouter answer is returned whatever Ollama would do (no later error is
surfaced); on an OpenRouter failure — or an empty OpenRouter answer, which
counts as failure — a non-empty Ollama answer is returned; without a
configured key only Ollama is attempted; and when every attempted provider
fails the single aggregate error names each provider with its reason. -/
theorem analyzeWithProvider_ordered_fallback (s1 s2 e1 e2 : String)
    (olAny orAny : ProviderOutcome) (h1 : s1 ≠ "") (h2 : s2 ≠ "") :
    analyzeWithProvider true (.content s1) olAny = .ok s1
    ∧ analyzeWithProvider true (.httpError e1) (.content s2) = .ok s2
    ∧ analyzeWithProvider true (.content "") (.content s2) = .ok s2
    ∧ analyzeWithProvider false orAny (.content s2) = .ok s2
    ∧ analyzeWithProvider true (.httpError e1) (.httpError e2) =
        .error ("All LLM providers failed:\n" ++
          (("OpenRouter: " ++ e1) ++ "\n" ++ ("Ollama: " ++ ("Ollama error: " ++ e2))))
    ∧ analyzeWithProvider false orAny (.httpError e2) =
        .error ("All LLM providers failed:\n" ++
          ("Ollama: " ++ ("Ollama error: " ++ e2))) := by
  refine ⟨?_, ?_, ?_, ?_, ?_, ?_⟩ <;>
    simp [analyzeWithProvider, analyzeWithOpenRouter, analyzeWithOllama,
      joinSep, h1, h2]

/-- Witness for the C5 theorem at concrete provider outcomes. -/
theorem analyzeWithProvider_ordered_fallback_witness :
    ("cloud answer" ≠ "" ∧ "local answer" ≠ "")
    ∧ (analyzeWithProvider true (.content "cloud answer") (.httpError "down") =
          .ok "cloud answer"
      ∧ analyzeWithProvider true (.httpError "e1") (.content "local answer") =
          .ok "local answer"
      ∧ analyzeWithProvider true (.content "") (.content "local answer") =
          .ok "local answer"
      ∧ analyzeWithProvider false (.httpError "unused") (.content "local answer") =
          .ok "local answer"
      ∧ analyzeWithProvider true (.httpError "e1") (.httpError "e2") =
          .error ("All LLM providers failed:\n" ++
            (("OpenRouter: " ++ "e1") ++ "\n" ++
              ("Ollama: " ++ ("Ollama error: " ++ "e2"))))
      ∧ analyzeWithProvider false (.httpError "unused") (.httpError "e2") =
          .error ("All LLM providers failed:\n" ++
            ("Ollama: " ++ ("Ollama error: " ++ "e2")))) :=
  ⟨⟨by decide, by decide⟩,
    analyzeWithProvider_ordered_fallback "cloud answer" "local answer" "e1" "e2"
      (.httpError "down") (.httpError "unused") (by decide) (by decide)⟩

/-- An observable event of the analysis pipeline: one ProviderRouter call
(the `prompt` and `issuesText` arguments handed to `analyzeWithProvider`),
or one `sleep` of the given milliseconds. -/
inductive LlmEvent where
  | call (prompt text : String)
  | wait (ms : Nat)
deriving DecidableEq, Repr

/-- The fixed per-chunk instruction of `analyzeIssues`, parameterized by the
1-based batch index `i` and the total batch count `n`. -/
def chunkPrompt (i n : Nat) : String :=
  "Summarize the key themes, common problems, and notable issues in this batch (batch "
    ++ toString i ++ " of " ++ toString n ++ "). Be concise."

/-- The label the loop prefixes to the summary of batch `i`. -/
def batchLabel (i : Nat) (summary : String) : String :=
  "Batch " ++ toString i ++ " Summary:\n" ++ summary

/-- The final-synthesis prompt embedding the original user prompt. -/
def finalPrompt (prompt : String) : String :=
  "Based on these summaries of GitHub issues from a repository, " ++ prompt

/-- The summarize loop of the chunked path of `analyzeIssues`: for the chunk
with 1-based index `i` of `n`, one router call with `chunkPrompt i n`; on
success the summary is collected under `batchLabel i` and, when further
chunks remain, a 2000 ms sleep precedes the next call; a router failure
propagates with the events so far. -/
def chunkLoop (router : String → String → Except String String) (n : Nat) :
    Nat → List String → List LlmEvent × Except String (List String)
  | _, [] => ([], .ok [])
  | i, c :: rest =>
      match router (chunkPrompt i n) c with
      | .error e => ([.call (chunkPrompt i n) c], .error e)
      | .ok s =>
          let tail := chunkLoop router n (i + 1) rest
          (.call (chunkPrompt i n) c ::
              ((if rest.isEmpty then [] else [.wait 2000]) ++ tail.1),
            tail.2.map (fun l => batchLabel i s :: l))

/-- The chunked path of `analyzeIssues` after the split: the summarize loop,
a 1000 ms sleep, then exactly one final router call on the labeled summaries
joined with `\n\n---\n\n`, whose outcome is returned. -/
def chunkedAnalysis (router : String → String → Except String String)
    (prompt : String) (chunks : List String) :
    List LlmEvent × Except String String :=
  match chunkLoop router chunks.length 1 chunks with
  | (evs, .error e) => (evs, .error e)
  | (evs, .ok summaries) =>
      (evs ++ [.wait 1000,
          .call (finalPrompt prompt) (joinSep "\n\n---\n\n" summaries)],
        router (finalPrompt prompt) (joinSep "\n\n---\n\n" summaries))

/-- `analyzeIssues` of `src/services/llm.ts`, parameterized by the
provider-router outcome function (`analyzeWithProvider` with its provider
outcomes fixed) and by the external splitter (`chunkText`, the LangChain
`RecursiveCharacterTextSplitter` of the `@langchain/textsplitters`
dependency); the result is the list of observable events paired with the
returned or thrown outcome.  The source's local `issuesText` binding is
inlined. -/
def analyzeIssues (router : String → String → Except String String)
    (split : String → List String) (prompt : String)
    (issues : List IssueRecord) : List LlmEvent × Except String String :=
  if issues.isEmpty then ([], .ok "No issues to analyze.")
  else
    if estimateTokens (formatIssuesForLLM issues) < 40000 then
      ([.call prompt (formatIssuesForLLM issues)],
        router prompt (formatIssuesForLLM issues))
    else
      chunkedAnalysis router prompt (split (formatIssuesForLLM issues))

/-- C9: on an empty record sequence the analysis operation returns the fixed
message `No issues to analyze.` with an empty event trace — no provider call
and no sleep happen. -/
theorem analyzeIssues_empty_no_provider_call
    (router : String → String → Except String String)
    (split : String → List String) (prompt : String) :
    analyzeIssues router split prompt [] = ([], .ok "No issues to analyze.") :=
  rfl

/-- Helper: a non-empty list is not `isEmpty`. -/
theorem isEmpty_eq_false_of_ne_nil {α : Type} {l : List α} (h : l ≠ []) :
    l.isEmpty = false := by
  cases l with
  | nil => exact absurd rfl h
  | cons a t => rfl

/-- Helper: below the threshold `analyzeIssues` is the direct single-call
path. -/
theorem analyzeIssues_direct_of_lt
    (router : String → String → Except String String)
    (split : String → List String) (prompt : String)
    (issues : List IssueRecord) (hne : issues ≠ [])
    (hlt : estimateTokens (formatIssuesForLLM issues) < 40000) :
    analyzeIssues router split prompt issues =
      ([.call prompt (formatIssuesForLLM issues)],
        router prompt (formatIssuesForLLM issues)) := by
  unfold analyzeIssues
  rw [isEmpty_eq_false_of_ne_nil hne]
  simp [hlt]

/-- Helper: at or above the threshold `analyzeIssues` is the chunked path on
the split corpus. -/
theorem analyzeIssues_chunked_of_ge
    (router : String → String → Except String String)
    (split : String → List String) (prompt : String)
    (issues : List IssueRecord) (hne : issues ≠ [])
    (hge : 40000 ≤ estimateTokens (formatIssuesForLLM issues)) :
    analyzeIssues router split prompt issues =
      chunkedAnalysis router prompt (split (formatIssuesForLLM issues)) := by
  unfold analyzeIssues
  rw [isEmpty_eq_false_of_ne_nil hne]
  simp [Nat.not_lt.mpr hge]

/-- Fixture shape: one stored issue with URL `u`, a null body, a fixed ISO
creation instant, and the given title. -/
def bigShape (t : String) : IssueRecord :=
  { repo := "acme/widgets"
    githubId := 1
    title := t
    body := none
    htmlUrl := "u"
    createdAt := "2024-01-01T00:00:00.000Z" }

/-- Fixture: a single issue whose formatted entry is exactly 160000
characters — 159932 title characters plus the 68 characters of the fixed
parts — an estimated 40000 tokens, exactly the threshold. -/
def bigIssue : IssueRecord := bigShape (String.mk (List.replicate 159932 'a'))

/-- Fixture: a small issue far below the threshold. -/
def smallIssue : IssueRecord :=
  { repo := "acme/widgets"
    githubId := 2
    title := "small"
    body := some "short body"
    htmlUrl := "u"
    createdAt := "2024-01-01T00:00:00.000Z" }

/-- Helper: length of a packed character list. -/
theorem strLength_mk (l : List Char) : (String.mk l).length = l.length := rfl

/-- Helper: a one-issue corpus formats to its single entry. -/
theorem formatIssuesForLLM_single (iss : IssueRecord) :
    formatIssuesForLLM [iss] = issueEntry 1 iss := rfl

/-- Helper: the entry of a `bigShape` issue adds 68 characters of fixed
template text around the title. -/
theorem issueEntry_bigShape_length (t : String) :
    (issueEntry 1 (bigShape t)).length = t.length + 68 := by
  unfold issueEntry bigShape
  dsimp only
  simp only [String.length_append]
  have h1 : ("## Issue " : String).length = 9 := by decide
  have h2 : (toString (1 : Nat)).length = 1 := by decide
  have h3 : (": " : String).length = 2 := by decide
  have h4 : ("\nURL: " : String).length = 6 := by decide
  have h5 : ("u" : String).length = 1 := by decide
  have h6 : ("\nCreated: " : String).length = 10 := by decide
  have h7 : (isoDatePart "2024-01-01T00:00:00.000Z").length = 10 := by decide
  have h8 : ("\nDescription: " : String).length = 14 := by decide
  have h9 : (bodyDisplay none).length = 14 := by decide
  have h10 : ("\n" : String).length = 1 := by decide
  omega

/-- Helper: the big title is 159932 characters long. -/
theorem bigTitle_length : (String.mk (List.replicate 159932 'a')).length = 159932 := by
  rw [strLength_mk, List.length_replicate]

/-- Helper: the big corpus is 160000 characters long. -/
theorem bigCorpus_length :
    (issueEntry 1 (bigShape (String.mk (List.replicate 159932 'a')))).length = 160000 := by
  rw [issueEntry_bigShape_length, bigTitle_length]

/-- Helper: a 160000-character corpus estimates to exactly 40000 tokens. -/
theorem estimateTokens_of_length (s : String) (h : s.length = 160000) :
    estimateTokens s = 40000 := by
  unfold estimateTokens
  rw [h]

/-- Helper: the big one-issue corpus estimates to exactly the 40000-token
threshold. -/
theorem estimateTokens_bigIssue :
    estimateTokens (formatIssuesForLLM [bigIssue]) = 40000 := by
  rw [formatIssuesForLLM_single,
    show bigIssue = bigShape (String.mk (List.replicate 159932 'a')) from rfl]
  exact estimateTokens_of_length _ bigCorpus_length

/-- A router whose every call succeeds with the empty answer. -/
def constOkRouter : String → String → Except String String :=
  fun _ _ => .ok ""

/-- A splitter returning the whole corpus as one chunk. -/
def singletonSplit : String → List String := fun t => [t]

/-- Helper: on a single chunk the chunked path emits exactly three events:
the batch-1 call, the 1000 ms sleep, and the final-synthesis call. -/
theorem chunkedAnalysis_singleton_trace_length (p t : String) :
    (chunkedAnalysis constOkRouter p (singletonSplit t)).1.length = 3 := rfl

/-- C3 counterexample: a corpus estimated at exactly the 40000-token
threshold does **not** take the direct path: the `totalTokens < 40000` test
of `analyzeIssues` is strict, so at exactly the threshold the chunked path
runs — its trace here has three events where the direct path would have
exactly one provider call. -/
theorem analyzeIssues_threshold_counterexample :
    estimateTokens (formatIssuesForLLM [bigIssue]) = 40000
    ∧ (analyzeIssues constOkRouter singletonSplit "p" [bigIssue]).1.length = 3
    ∧ (analyzeIssues constOkRouter singletonSplit "p" [bigIssue]).1.length ≠ 1 := by
  have h := analyzeIssues_chunked_of_ge constOkRouter singletonSplit "p" [bigIssue]
    (by simp) (le_of_eq estimateTokens_bigIssue.symm)
  refine ⟨estimateTokens_bigIssue, ?_, ?_⟩
  · rw [h, chunkedAnalysis_singleton_trace_length]
  · rw [h, chunkedAnalysis_singleton_trace_length]
    decide

/-- C3 (amended): for a non-empty record sequence the pipeline takes the
direct path (one provider call embedding the full formatted corpus) exactly
when the corpus's estimated token count (character count divided by 4,
rounded up) is strictly below the 40000-token threshold; at exactly the
threshold, and above it, the chunked path is taken. -/
theorem analyzeIssues_threshold_strict
    (router : String → String → Except String String)
    (split : String → List String) (prompt : String)
    (issues : List IssueRecord) (hne : issues ≠ []) :
    (estimateTokens (formatIssuesForLLM issues) < 40000 →
      analyzeIssues router split prompt issues =
        ([.call prompt (formatIssuesForLLM issues)],
          router prompt (formatIssuesForLLM issues)))
    ∧ (40000 ≤ estimateTokens (formatIssuesForLLM issues) →
      analyzeIssues router split prompt issues =
        chunkedAnalysis router prompt (split (formatIssuesForLLM issues))) :=
  ⟨fun hlt => analyzeIssues_direct_of_lt router split prompt issues hne hlt,
   fun hge => analyzeIssues_chunked_of_ge router split prompt issues hne hge⟩

/-- Witness for the amended C3 theorem: the small corpus is strictly below
the threshold and takes the direct single-call path. -/
theorem analyzeIssues_threshold_strict_witness :
    (([smallIssue] : List IssueRecord) ≠ []
      ∧ estimateTokens (formatIssuesForLLM [smallIssue]) < 40000)
    ∧ analyzeIssues constOkRouter singletonSplit "p" [smallIssue] =
        ([.call "p" (formatIssuesForLLM [smallIssue])],
          constOkRouter "p" (formatIssuesForLLM [smallIssue])) :=
  ⟨⟨by simp, by decide⟩,
    (analyzeIssues_threshold_strict constOkRouter singletonSplit "p" [smallIssue]
      (by simp)).1 (by decide)⟩

/-- The calls the chunked path is specified to make: one per chunk, in
order, batch-indexed from `i` of `n`. -/
def chunkCallsFrom (n : Nat) : Nat → List String → List LlmEvent
  | _, [] => []
  | i, c :: rest => .call (chunkPrompt i n) c :: chunkCallsFrom n (i + 1) rest

/-- The labeled summaries the chunked path is specified to collect: batch
`i` labeled over the answer of the pure router `f` on chunk `i` of `n`. -/
def summariesFrom (f : String → String → String) (n : Nat) :
    Nat → List String → List String
  | _, [] => []
  | i, c :: rest =>
      batchLabel i (f (chunkPrompt i n) c) :: summariesFrom f n (i + 1) rest

/-- Helper: with an always-succeeding router the summarize loop emits the
per-chunk calls in order with a 2000 ms sleep between successive calls, and
collects the labeled summaries. -/
theorem chunkLoop_pure (f : String → String → String) (n : Nat)
    (cs : List String) :
    ∀ i : Nat,
      chunkLoop (fun p t => .ok (f p t)) n i cs =
        (List.intersperse (.wait 2000) (chunkCallsFrom n i cs),
          .ok (summariesFrom f n i cs)) := by
  induction cs with
  | nil => intro i; rfl
  | cons c rest ih =>
      intro i
      rw [show chunkLoop (fun p t => .ok (f p t)) n i (c :: rest) =
          (.call (chunkPrompt i n) c ::
            ((if rest.isEmpty then [] else [.wait 2000]) ++
              (chunkLoop (fun p t => .ok (f p t)) n (i + 1) rest).1),
           ((chunkLoop (fun p t => .ok (f p t)) n (i + 1) rest).2).map
              (fun l => batchLabel i (f (chunkPrompt i n) c) :: l)) from rfl,
        ih (i + 1)]
      cases rest with
      | nil => simp [chunkCallsFrom, summariesFrom, List.intersperse, Except.map]
      | cons c' rest' =>
          simp [chunkCallsFrom, summariesFrom, List.intersperse_cons_cons,
            Except.map]

/-- Helper: with an always-succeeding router the whole chunked path is the
interspersed per-chunk calls, the 1000 ms sleep, and one final call whose
answer is returned. -/
theorem chunkedAnalysis_pure (f : String → String → String) (prompt : String)
    (chunks : List String) :
    chunkedAnalysis (fun p t => .ok (f p t)) prompt chunks =
      (List.intersperse (.wait 2000) (chunkCallsFrom chunks.length 1 chunks)
          ++ [.wait 1000,
              .call (finalPrompt prompt)
                (joinSep "\n\n---\n\n" (summariesFrom f chunks.length 1 chunks))],
        .ok (f (finalPrompt prompt)
              (joinSep "\n\n---\n\n" (summariesFrom f chunks.length 1 chunks)))) := by
  unfold chunkedAnalysis
  rw [chunkLoop_pure f chunks.length chunks 1]

/-- C7: for every corpus at or above the token threshold, the pipeline
splits the corpus and, per chunk in order, issues one router call with the
fixed per-chunk instruction parameterized by batch index `i` and total count
`n`, with the fixed 2000 ms delay between successive chunk calls; each
summary is labeled by batch index; after all chunks a 1000 ms pause precedes
exactly one final router call combining the original user prompt with the
labeled summaries joined by `\n\n---\n\n`, and that final call's answer is
the pipeline's result (router modeled as always succeeding via `f`). -/
theorem analyzeIssues_chunked_pipeline (f : String → String → String)
    (split : String → List String) (prompt : String)
    (issues : List IssueRecord) (hne : issues ≠ [])
    (hge : 40000 ≤ estimateTokens (formatIssuesForLLM issues)) :
    analyzeIssues (fun p t => .ok (f p t)) split prompt issues =
      (List.intersperse (.wait 2000)
          (chunkCallsFrom (split (formatIssuesForLLM issues)).length 1
            (split (formatIssuesForLLM issues)))
        ++ [.wait 1000,
            .call (finalPrompt prompt)
              (joinSep "\n\n---\n\n"
                (summariesFrom f (split (formatIssuesForLLM issues)).length 1
                  (split (formatIssuesForLLM issues))))],
       .ok (f (finalPrompt prompt)
              (joinSep "\n\n---\n\n"
                (summariesFrom f (split (formatIssuesForLLM issues)).length 1
                  (split (formatIssuesForLLM issues)))))) := by
  rw [analyzeIssues_chunked_of_ge _ split prompt issues hne hge,
    chunkedAnalysis_pure]

/-- A provider answer function returning the empty answer on every call. -/
def constEmpty : String → String → String := fun _ _ => ""

/-- Witness for the C7 theorem at the exactly-at-threshold corpus with a
single-chunk splitter. -/
theorem analyzeIssues_chunked_pipeline_witness :
    (([bigIssue] : List IssueRecord) ≠ []
      ∧ 40000 ≤ estimateTokens (formatIssuesForLLM [bigIssue]))
    ∧ analyzeIssues (fun p t => .ok (constEmpty p t)) singletonSplit "p" [bigIssue] =
        (List.intersperse (.wait 2000)
            (chunkCallsFrom (singletonSplit (formatIssuesForLLM [bigIssue])).length 1
              (singletonSplit (formatIssuesForLLM [bigIssue])))
          ++ [.wait 1000,
              .call (finalPrompt "p")
                (joinSep "\n\n---\n\n"
                  (summariesFrom constEmpty
                    (singletonSplit (formatIssuesForLLM [bigIssue])).length 1
                    (singletonSplit (formatIssuesForLLM [bigIssue]))))],
         .ok (constEmpty (finalPrompt "p")
                (joinSep "\n\n---\n\n"
                  (summariesFrom constEmpty
                    (singletonSplit (formatIssuesForLLM [bigIssue])).length 1
                    (singletonSplit (formatIssuesForLLM [bigIssue])))))) :=
  ⟨⟨by simp, le_of_eq estimateTokens_bigIssue.symm⟩,
    analyzeIssues_chunked_pipeline constEmpty singletonSplit "p" [bigIssue]
      (by simp) (le_of_eq estimateTokens_bigIssue.symm)⟩

/-- Helper: strings with equal character data are equal. -/
theorem strExt (a b : String) (h : a.data = b.data) : a = b := by
  cases a; cases b; cases h; rfl

/-- Helper: appending distributes over the character data. -/
theorem strData_append (a b : String) : (a ++ b).data = a.data ++ b.data := by
  cases a; cases b; rfl

/-- Helper: appending the empty string is the identity. -/
theorem strAppend_empty (s : String) : s ++ "" = s := by
  cases s with
  | mk d =>
      show String.mk (d ++ []) = String.mk d
      rw [List.append_nil]

/-- Helper: taking at least the whole length is the identity. -/
theorem strTake_of_le (s : String) (n : Nat) (h : s.length ≤ n) :
    strTake n s = s := by
  apply strExt
  show s.data.take n = s.data
  exact List.take_of_length_le h

/-- The body content `formatIssuesForLLM` actually renders for a non-null
body: its first 300 characters, with `...` appended when the body was
longer. -/
def truncatedBody (b : String) : String :=
  strTake 300 b ++ (if 300 < b.length then "..." else "")

/-- Helper: `bodyDisplay` on a non-null body, phrased via `truncatedBody`. -/
theorem bodyDisplay_some (b : String) :
    bodyDisplay (some b) = if b = "" then "No description" else truncatedBody b :=
  rfl

/-- Helper: a body longer than 300 characters renders to 303 characters. -/
theorem truncatedBody_length_of_gt (b : String) (h : 300 < b.length) :
    (truncatedBody b).length = 303 := by
  unfold truncatedBody
  rw [if_pos h, String.length_append]
  have h1 : (strTake 300 b).length = 300 := by
    show (b.data.take 300).length = 300
    rw [List.length_take]
    have hd : b.data.length = b.length := rfl
    omega
  have h2 : ("..." : String).length = 3 := by decide
  omega

/-- Helper: rendering an already-rendered body changes nothing, so the
formatted corpus depends on a body only through its rendered truncation. -/
theorem bodyDisplay_truncated (b : String) :
    bodyDisplay (some (truncatedBody b)) = bodyDisplay (some b) := by
  by_cases hlen : 300 < b.length
  · have hb : b ≠ "" := by
      intro h0; rw [h0] at hlen; exact absurd hlen (by decide)
    have htb_eq : truncatedBody b = strTake 300 b ++ "..." := by
      unfold truncatedBody; rw [if_pos hlen]
    have h303 : (strTake 300 b ++ "...").length = 303 := by
      rw [← htb_eq]; exact truncatedBody_length_of_gt b hlen
    have hne : truncatedBody b ≠ "" := by
      rw [htb_eq]; intro h0
      rw [h0] at h303; exact absurd h303 (by decide)
    rw [bodyDisplay_some, bodyDisplay_some, if_neg hne, if_neg hb]
    rw [htb_eq]
    unfold truncatedBody
    rw [if_pos (show 300 < (strTake 300 b ++ "...").length by rw [h303]; decide)]
    congr 1
    apply strExt
    show ((strTake 300 b ++ "...").data).take 300 = (strTake 300 b).data
    rw [strData_append]
    have hlen300 : 300 ≤ (strTake 300 b).data.length := by
      show 300 ≤ (b.data.take 300).length
      rw [List.length_take]
      have hd : b.data.length = b.length := rfl
      omega
    rw [List.take_append_of_le_length hlen300]
    show (b.data.take 300).take 300 = b.data.take 300
    rw [List.take_take, Nat.min_self]
  · have htb : truncatedBody b = b := by
      unfold truncatedBody
      rw [if_neg hlen, strTake_of_le b 300 (Nat.not_lt.mp hlen), strAppend_empty]
    rw [htb]

/-- The issue with its body replaced by what the formatter renders of it. -/
def truncateIssueBody (iss : IssueRecord) : IssueRecord :=
  { iss with body := iss.body.map truncatedBody }

/-- Helper: an entry only sees the rendered truncation of the body. -/
theorem issueEntry_truncate (idx : Nat) (iss : IssueRecord) :
    issueEntry idx (truncateIssueBody iss) = issueEntry idx iss := by
  have hbd : bodyDisplay (iss.body.map truncatedBody) = bodyDisplay iss.body := by
    cases iss.body with
    | none => rfl
    | some b => exact bodyDisplay_truncated b
  unfold issueEntry truncateIssueBody
  dsimp only
  rw [hbd]

/-- Helper: the entry list only sees the rendered truncations. -/
theorem issueEntriesFrom_truncate (issues : List IssueRecord) :
    ∀ idx : Nat,
      issueEntriesFrom idx (issues.map truncateIssueBody) =
        issueEntriesFrom idx issues := by
  induction issues with
  | nil => intro idx; rfl
  | cons a t ih =>
      intro idx
      simp only [List.map_cons, issueEntriesFrom, issueEntry_truncate,
        ih (idx + 1)]

/-- C10: a body longer than 300 characters is rendered as its first 300
characters followed by `...`, a null body as `No description`, and the
formatted corpus handed to the provider is invariant under replacing every
body by its rendered truncation — analysis never sees body content beyond
the first 300 characters, however long the stored bodies are. -/
theorem formatIssuesForLLM_sees_only_truncated_bodies
    (issues : List IssueRecord) (b : String) (h : 300 < b.length) :
    bodyDisplay (some b) = strTake 300 b ++ "..."
    ∧ bodyDisplay none = "No description"
    ∧ formatIssuesForLLM (issues.map truncateIssueBody) =
        formatIssuesForLLM issues := by
  refine ⟨?_, rfl, ?_⟩
  · rw [bodyDisplay_some,
      if_neg (show ¬b = "" by intro h0; rw [h0] at h; exact absurd h (by decide))]
    unfold truncatedBody
    rw [if_pos h]
  · unfold formatIssuesForLLM
    rw [issueEntriesFrom_truncate issues 1]

/-- Witness for the C10 theorem: a 301-character body. -/
theorem formatIssuesForLLM_sees_only_truncated_bodies_witness :
    300 < (String.mk (List.replicate 301 'b')).length
    ∧ (bodyDisplay (some (String.mk (List.replicate 301 'b'))) =
          strTake 300 (String.mk (List.replicate 301 'b')) ++ "..."
      ∧ bodyDisplay none = "No description"
      ∧ formatIssuesForLLM ([smallIssue].map truncateIssueBody) =
          formatIssuesForLLM [smallIssue]) :=
  ⟨by decide,
    formatIssuesForLLM_sees_only_truncated_bodies [smallIssue]
      (String.mk (List.replicate 301 'b')) (by decide)⟩

/-! Spec-modelled ChunkSplitter.  The repository configures LangChain's
`RecursiveCharacterTextSplitter` (`chunkSize` 25000, `chunkOverlap` 2500,
separators from the issue-record separator down to the single character) and
calls it through `chunkText`; the splitting algorithm itself lives in the
external `@langchain/textsplitters` package, not under `src/`. -/

/-- Modelled from the spec: the ChunkSplitter algorithm of section 4.3,
whose implementation (LangChain's recursive character splitter) is missing
from `src/`.  Since the configured separator hierarchy bottoms out at the
single-character separator, every piece can be made to fit the budget, and
adjacent chunks share a trailing/leading overlap of the configured size; the
model therefore emits maximal windows of at most `S` characters whose
consecutive windows overlap in exactly `O` characters (`fuel` bounds the
recursion and is fixed to the text length at the entry point). -/
def windowsAux (S O : Nat) : Nat → List Char → List (List Char)
  | 0, t => [t]
  | fuel + 1, t =>
      if t.length ≤ S then [t]
      else t.take S :: windowsAux S O fuel (t.drop (S - O))

/-- Modelled from the spec: the splitter entry point (`splitText`) for chunk
size `S` and overlap `O`. -/
def splitTextWindows (S O : Nat) (t : List Char) : List (List Char) :=
  windowsAux S O t.length t

/-- The configured chunk size of `src/services/llm.ts`: 25000 characters. -/
def chunkSize : Nat := 25000

/-- The configured overlap of `src/services/llm.ts`: 2500 characters. -/
def chunkOverlap : Nat := 2500

/-- Modelled from the spec: `chunkText`, the splitter at the configured
parameters. -/
def chunkText (t : List Char) : List (List Char) :=
  splitTextWindows chunkSize chunkOverlap t

/-- Concatenating the chunks with the overlap removed: the first chunk
whole, every later chunk without its first `O` characters. -/
def dropOverlaps (O : Nat) : List (List Char) → List Char
  | [] => []
  | c :: rest => c ++ (rest.map (List.drop O)).flatten

/-- Decidable check that every pair of consecutive chunks shares
`min O (length of the later chunk)` characters of context: the suffix of
each chunk is the prefix of the next. -/
def overlapChainOk (O : Nat) : List (List Char) → Bool
  | [] => true
  | [_] => true
  | a :: b :: rest =>
      decide (b.take (min O b.length) = a.drop (a.length - min O b.length))
        && overlapChainOk O (b :: rest)

/-- Helper: dropping the overlap from every window of the tail
reconstructs the text past its first `O` characters. -/
theorem windowsAux_flatten_drop (S O : Nat) (hSO : O < S) :
    ∀ (fuel : Nat) (t : List Char), t.length ≤ fuel →
      ((windowsAux S O fuel t).map (List.drop O)).flatten = t.drop O := by
  intro fuel
  induction fuel with
  | zero =>
      intro t ht
      have h0 : t = [] := List.eq_nil_of_length_eq_zero (Nat.le_zero.mp ht)
      subst h0; simp [windowsAux]
  | succ fuel ih =>
      intro t ht
      by_cases hts : t.length ≤ S
      · simp [windowsAux, hts]
      · rw [show windowsAux S O (fuel + 1) t =
            t.take S :: windowsAux S O fuel (t.drop (S - O)) from by
          simp [windowsAux, hts]]
        rw [List.map_cons, List.flatten_cons,
          ih (t.drop (S - O)) (by rw [List.length_drop]; omega)]
        rw [List.drop_take, List.drop_drop]
        rw [show S - O + O = S from by omega,
          show (S : Nat) - O = S - O from rfl]
        rw [show t.drop S = (t.drop O).drop (S - O) from by
          rw [List.drop_drop]; congr 1; omega]
        exact List.take_append_drop _ _

/-- Helper: unfolding equation of `dropOverlaps` on a cons. -/
theorem dropOverlaps_cons (O : Nat) (c : List Char) (rest : List (List Char)) :
    dropOverlaps O (c :: rest) = c ++ (rest.map (List.drop O)).flatten := rfl

/-- Helper: the windows reconstruct the whole text. -/
theorem windowsAux_reconstruct (S O : Nat) (hSO : O < S) :
    ∀ (fuel : Nat) (t : List Char), t.length ≤ fuel →
      dropOverlaps O (windowsAux S O fuel t) = t := by
  intro fuel
  cases fuel with
  | zero =>
      intro t ht
      have h0 : t = [] := List.eq_nil_of_length_eq_zero (Nat.le_zero.mp ht)
      subst h0; rfl
  | succ fuel =>
      intro t ht
      by_cases hts : t.length ≤ S
      · simp [windowsAux, hts, dropOverlaps]
      · rw [show windowsAux S O (fuel + 1) t =
            t.take S :: windowsAux S O fuel (t.drop (S - O)) from by
          simp [windowsAux, hts]]
        rw [dropOverlaps_cons]
        rw [windowsAux_flatten_drop S O hSO fuel (t.drop (S - O))
          (by rw [List.length_drop]; omega)]
        rw [List.drop_drop, show S - O + O = S from by omega]
        exact List.take_append_drop _ _

/-- Helper: every window fits the size budget. -/
theorem windowsAux_size (S O : Nat) (hSO : O < S) :
    ∀ (fuel : Nat) (t : List Char), t.length ≤ fuel →
      (windowsAux S O fuel t).all (fun c => decide (c.length ≤ S)) = true := by
  intro fuel
  induction fuel with
  | zero =>
      intro t ht
      have h0 : t = [] := List.eq_nil_of_length_eq_zero (Nat.le_zero.mp ht)
      subst h0; simp [windowsAux]
  | succ fuel ih =>
      intro t ht
      by_cases hts : t.length ≤ S
      · simp [windowsAux, hts]
      · rw [show windowsAux S O (fuel + 1) t =
            t.take S :: windowsAux S O fuel (t.drop (S - O)) from by
          simp [windowsAux, hts]]
        rw [List.all_cons]
        have h1 : decide ((t.take S).length ≤ S) = true := by
          simp [List.length_take]
        have h2 := ih (t.drop (S - O)) (by rw [List.length_drop]; omega)
        rw [h1, h2]
        rfl

/-- Helper: on a text longer than the overlap, the splitter's first window
is longer than the overlap and starts with the text's first `O`
characters. -/
theorem windowsAux_head (S O : Nat) (hSO : O < S) (fuel : Nat) (t : List Char)
    (ht : O < t.length) :
    ∃ b rest, windowsAux S O fuel t = b :: rest
      ∧ O < b.length ∧ b.take O = t.take O := by
  cases fuel with
  | zero => exact ⟨t, [], rfl, ht, rfl⟩
  | succ fuel =>
      by_cases hts : t.length ≤ S
      · exact ⟨t, [], by simp [windowsAux, hts], ht, rfl⟩
      · refine ⟨t.take S, windowsAux S O fuel (t.drop (S - O)),
          by simp [windowsAux, hts], ?_, ?_⟩
        · rw [List.length_take]; omega
        · rw [List.take_take, Nat.min_eq_left (le_of_lt hSO)]

/-- Helper: consecutive windows share exactly the configured overlap. -/
theorem windowsAux_chain (S O : Nat) (hSO : O < S) :
    ∀ (fuel : Nat) (t : List Char), t.length ≤ fuel →
      overlapChainOk O (windowsAux S O fuel t) = true := by
  intro fuel
  induction fuel with
  | zero => intro t ht; rfl
  | succ fuel ih =>
      intro t ht
      by_cases hts : t.length ≤ S
      · simp [windowsAux, hts, overlapChainOk]
      · obtain ⟨b, rest, heq, hOb, htake⟩ :=
          windowsAux_head S O hSO fuel (t.drop (S - O))
            (by rw [List.length_drop]; omega)
        rw [show windowsAux S O (fuel + 1) t =
            t.take S :: windowsAux S O fuel (t.drop (S - O)) from by
          simp [windowsAux, hts], heq]
        rw [show overlapChainOk O (t.take S :: b :: rest) =
            (decide (b.take (min O b.length) =
                (t.take S).drop ((t.take S).length - min O b.length))
              && overlapChainOk O (b :: rest)) from rfl]
        have hmin : min O b.length = O := Nat.min_eq_left (le_of_lt hOb)
        have hSlen : (t.take S).length = S := by rw [List.length_take]; omega
        have hpref : b.take (min O b.length) =
            (t.take S).drop ((t.take S).length - min O b.length) := by
          rw [hmin, hSlen, htake, List.drop_take,
            show S - (S - O) = O from by omega]
        have hrest : overlapChainOk O (b :: rest) = true := by
          rw [← heq]
          exact ih (t.drop (S - O)) (by rw [List.length_drop]; omega)
        rw [hpref, hrest]
        simp

/-- C6: for every corpus and every configuration with overlap below chunk
size, the spec-modelled splitter satisfies the claimed laws: concatenating
the chunks with the overlap removed reconstructs the corpus exactly; no
chunk exceeds `S` characters (with the single-character fallback separator
no indivisible oversized unit can arise, so the claim's pass-through
exception is never needed); and every pair of consecutive chunks shares
`min O (chunk length)` characters of context.  Determinism for identical
input and configuration is definitional: the splitter is a pure function. -/
theorem chunkSplitter_coverage_overlap (S O : Nat) (t : List Char)
    (hSO : O < S) :
    dropOverlaps O (splitTextWindows S O t) = t
    ∧ (splitTextWindows S O t).all (fun c => decide (c.length ≤ S)) = true
    ∧ overlapChainOk O (splitTextWindows S O t) = true :=
  ⟨windowsAux_reconstruct S O hSO t.length t le_rfl,
   windowsAux_size S O hSO t.length t le_rfl,
   windowsAux_chain S O hSO t.length t le_rfl⟩

/-- Witness for the C6 theorem: size 3, overlap 1, corpus `abcde` — chunks
`abc` and `cde`. -/
theorem chunkSplitter_coverage_overlap_witness :
    (1 : Nat) < 3
    ∧ (dropOverlaps 1 (splitTextWindows 3 1 ("abcde".data)) = "abcde".data
      ∧ (splitTextWindows 3 1 ("abcde".data)).all
          (fun c => decide (c.length ≤ 3)) = true
      ∧ overlapChainOk 1 (splitTextWindows 3 1 ("abcde".data)) = true) :=
  ⟨by decide, chunkSplitter_coverage_overlap 3 1 ("abcde".data) (by decide)⟩
